import Mathlib

/-!
# PufferPanel `servers/tty`: the pseudo-terminal process environment

A shallow embedding of `src/servers/tty/tty.go`.  The mutable receiver `*tty`
becomes an explicit `World` (the struct fields plus the ordered trace of the
effects the code performs on its collaborators); the operating system and the
third-party libraries the file calls (`os`, `os/exec`, `creack/pty`, `gopsutil`)
are taken as parameters (`Sys`, `Sampler`), so every theorem holds for every
behaviour of those.  A Go run-time panic is the `Except.error` result.

Embedded: `IsRunning`, `ttyExecuteAsync`, `ExecuteInMainProcess`, `handleClose`
and `GetStats`.  Goroutines are not interleaved: `go f()` is an entry of the
trace, and `handleClose` is a step of its own on the world it finds.
-/

namespace PufferPanel

/-! ## Data model -/

/-- Go `error` values: the two sentinels of package `pufferpanel` the file
returns, and any other (operating-system) error. -/
inductive GoError where
  | ErrProcessRunning
  | ErrServerOffline
  | other (msg : String)
deriving DecidableEq, Repr

/-- The text of an error (`err.Error()`), as `%s` prints it. -/
def GoError.Error : GoError → String
  | .ErrProcessRunning => "process already running"
  | .ErrServerOffline => "server offline"
  | .other msg => msg

/-- An `os.Process`. -/
structure Process where
  Pid : Int
deriving DecidableEq, Repr

/-- An `os.ProcessState`: what `ExitCode()` and `String()` return. -/
structure ProcessState where
  ExitCode : Int
  String : String
deriving DecidableEq, Repr

/-- The two `syscall.SysProcAttr` fields the launcher sets. -/
structure SysProcAttr where
  Setctty : Bool
  Setsid : Bool
deriving DecidableEq, Repr

/-- An `exec.Cmd`, with the fields the file reads or writes. -/
structure Cmd where
  Path : String
  Args : List String
  Dir : String
  Env : List String
  SysProcAttr : Option SysProcAttr
  Process : Option Process
  ProcessState : Option ProcessState
deriving DecidableEq, Repr

/-- An `io.Writer` handle (the pty master returned by `pty.Start`). -/
structure Writer where
  fd : Nat
deriving DecidableEq, Repr

/-- A `messages.Status` event. -/
structure Status where
  Running : Bool
  Installing : Bool
deriving DecidableEq, Repr

/-- The levels of `logging` the file uses. -/
inductive LogLevel where
  | Info
  | Error
  | Debug
deriving DecidableEq, Repr

/-- The effects of the code on its collaborators, in program order. -/
inductive Effect where
  /-- `t.DisplayToConsole(true, ...)` -/
  | display (line : String)
  /-- `t.Log(level, ...)` -/
  | log (level : LogLevel) (line : String)
  /-- `t.StatusTracker.WriteMessage(msg)` -/
  | status (msg : Status)
  /-- `pty.Start(pr)` was called -/
  | spawn (pr : Cmd)
  /-- `go func(proxy) { io.Copy(proxy, processTty) }(t.Wrapper)` -/
  | goCopy (processTty : Writer)
  /-- `go t.handleClose(steps.Callback)` -/
  | goHandleClose
  /-- `io.WriteString(w, s)` -/
  | write (w : Writer) (s : String)
  /-- `Process.Release()` -/
  | release (pid : Int)
  /-- `callback(exitCode)` -/
  | callback (exitCode : Int)
deriving DecidableEq, Repr

/-- The fields of the embedded `*pufferpanel.BaseEnvironment` the file uses.
`Wait` is the counter of the `sync.WaitGroup`; `Installing` is what
`IsInstalling()` reports. -/
structure BaseEnvironment where
  RootDirectory : String
  LastExitCode : Int
  Wait : Nat
  Installing : Bool
deriving DecidableEq, Repr

/-- The `tty` struct. -/
structure tty where
  base : BaseEnvironment
  mainProcess : Option Cmd
  stdInWriter : Option Writer
deriving DecidableEq, Repr

/-- The receiver together with the trace of effects performed so far. -/
structure World where
  t : tty
  trace : List Effect
deriving DecidableEq, Repr

/-- The operating system and libraries, as the calls of the file see them. -/
structure Sys where
  /-- `os.Environ()` -/
  Environ : List String
  /-- the path `exec.Command` resolves a command name to -/
  LookPath : String → String
  /-- `path.Join` -/
  Join : String → String → String
  /-- `pty.Start`: the started process and the pty, or the text of the
  operating-system error -/
  Start : Cmd → Except String (Process × Writer)
  /-- `os.FindProcess` -/
  FindProcess : Int → Option Process × Option GoError
  /-- `(*os.Process).Signal` -/
  Signal : Process → Int → Option GoError
  /-- `(*exec.Cmd).Wait`: the error, and `ProcessState` after the call -/
  Wait : Cmd → Option GoError × Option ProcessState
  /-- the error of a `Write` on a writer -/
  Write : Writer → String → Option GoError

/-- A `pufferpanel.ExecutionData`.  `Environment` lists the entries of the Go
map in the order the `range` loop visits them; `Callback` may be nil. -/
structure ExecutionData where
  Command : String
  Arguments : List String
  WorkingDirectory : String
  Environment : List (String × String)
  Callback : Option (Int → World → Except String World)

/-! ## Library functions with a fixed meaning -/

/-- Go `strings.HasPrefix`. -/
def HasPrefix (s pre : String) : Bool :=
  pre.data.isPrefixOf s.data

/-- Go `strings.Join`. -/
def stringsJoin (elems : List String) (sep : String) : String :=
  sep.intercalate elems

/-- Go `exec.Command(name, arg...)`. -/
def Command (sys : Sys) (name : String) (arg : List String) : Cmd :=
  { Path := sys.LookPath name, Args := name :: arg, Dir := "", Env := [],
    SysProcAttr := none, Process := none, ProcessState := none }

/-- Go `(*sync.WaitGroup).Done`: a negative counter panics. -/
def WaitGroup.Done (counter : Nat) : Except String Nat :=
  if counter = 0 then .error "sync: negative WaitGroup counter" else .ok (counter - 1)

/-- Go `(*os.ProcessState).Success`: the process exited with status 0. -/
def ProcessState.Success (ps : ProcessState) : Bool :=
  ps.ExitCode == 0

/-- Go `(*exec.Cmd).Wait`, after the standard library: the error and the
`ProcessState` field after the call.  `processWait` is `(*os.Process).Wait`.
A process that did not exit with status 0 is reported as an `*exec.ExitError`,
whose text is the text of the state. -/
def cmdWait (processWait : Process → Option ProcessState × Option GoError) (c : Cmd) :
    Option GoError × Option ProcessState :=
  match c.Process with
  | none => (some (GoError.other "exec: not started"), c.ProcessState)
  | some p =>
    match c.ProcessState with
    | some _ => (some (GoError.other "exec: Wait was already called"), c.ProcessState)
    | none =>
      match processWait p with
      | (some state, none) =>
        if !state.Success then (some (GoError.other state.String), some state)
        else (none, some state)
      | (state, err) => (err, state)

/-! ## `tty.go` -/

/-- `func (t *tty) IsRunning() (isRunning bool, err error)` -/
def IsRunning (sys : Sys) (t : tty) : Bool × Option GoError :=
  match t.mainProcess with
  | none => (false, none)
  | some mainProcess =>
    match mainProcess.Process with
    | none => (false, none)
    | some p =>
      match sys.FindProcess p.Pid with
      | (some pr, none) =>
        if (sys.Signal pr 0).isSome then (false, none) else (true, none)
      | _ => (false, none)

/-- The first loop of `ttyExecuteAsync`: copy `os.Environ()` without the
entries that start with `PUFFER_`. -/
def copyEnviron (environ : List String) (env : List String) : List String :=
  environ.foldl (fun env v => if !HasPrefix v "PUFFER_" then env ++ [v] else env) env

/-- The second loop of `ttyExecuteAsync`: append `k=v` for each override. -/
def appendOverrides (overrides : List (String × String)) (env : List String) :
    List String :=
  overrides.foldl (fun env kv => env ++ [kv.1 ++ "=" ++ kv.2]) env

/-- The value of `pr.Env` after lines 40-48 of `ttyExecuteAsync`. -/
def buildEnv (environ : List String) (root : String)
    (overrides : List (String × String)) : List String :=
  appendOverrides overrides
    (copyEnviron environ [] ++ ["HOME=" ++ root, "TERM=xterm-256color"])

/-- The command `ttyExecuteAsync` builds in lines 38-51, before it is started. -/
def buildCmd (sys : Sys) (steps : ExecutionData) (root : String) : Cmd :=
  let pr := Command sys steps.Command steps.Arguments
  let pr := { pr with Dir := sys.Join root steps.WorkingDirectory }
  let pr := { pr with Env := buildEnv sys.Environ root steps.Environment }
  { pr with SysProcAttr := some { Setctty := true, Setsid := true } }

/-- The line shown on the console and logged before the spawn. -/
def startingLine (pr : Cmd) : String :=
  "Starting process: " ++ pr.Path ++ " " ++ stringsJoin pr.Args.tail " "

/-- `func (t *tty) ttyExecuteAsync(steps pufferpanel.ExecutionData) (err error)` -/
def ttyExecuteAsync (sys : Sys) (steps : ExecutionData) (w : World) :
    Except String (Option GoError × World) :=
  match IsRunning sys w.t with
  | (_, some err) => .ok (some err, w)
  | (true, none) => .ok (some GoError.ErrProcessRunning, w)
  | (false, none) =>
    let pr := buildCmd sys steps w.t.base.RootDirectory
    -- t.Wait.Add(1)
    let base := { w.t.base with Wait := w.t.base.Wait + 1 }
    -- t.mainProcess = pr
    let t : tty := { w.t with base := base, mainProcess := some pr }
    let msg : Status := { Running := true, Installing := base.Installing }
    let trace := w.trace ++
      [Effect.display (startingLine pr), Effect.log LogLevel.Info (startingLine pr),
       Effect.status msg, Effect.spawn pr]
    match sys.Start pr with
    | .error err =>
      match WaitGroup.Done t.base.Wait with
      | .error p => .error p
      | .ok n =>
        .ok (some (GoError.other err),
             { t := { t with base := { t.base with Wait := n } }, trace := trace })
    | .ok (proc, processTty) =>
      -- the started command is the one `t.mainProcess` points to
      let t := { t with mainProcess := some { pr with Process := some proc } }
      let t := { t with stdInWriter := some processTty }
      .ok (none, { t := t,
                   trace := trace ++ [Effect.goCopy processTty, Effect.goHandleClose] })

/-- `func (t *tty) ExecuteInMainProcess(cmd string) (err error)` -/
def ExecuteInMainProcess (sys : Sys) (cmd : String) (w : World) :
    Except String (Option GoError × World) :=
  match IsRunning sys w.t with
  | (_, some err) => .ok (some err, w)
  | (false, none) => .ok (some GoError.ErrServerOffline, w)
  | (true, none) =>
    match w.t.stdInWriter with
    | none => .error "invalid memory address or nil pointer dereference"
    | some stdIn =>
      .ok (sys.Write stdIn (cmd ++ "\n"),
           { w with trace := w.trace ++ [Effect.write stdIn (cmd ++ "\n")] })

/-- `func (t *tty) handleClose(callback func(exitCode int))` -/
def handleClose (sys : Sys) (callback : Option (Int → World → Except String World))
    (w : World) : Except String World :=
  match w.t.mainProcess with
  | none => .error "invalid memory address or nil pointer dereference"
  | some cmd =>
    -- err := t.mainProcess.Wait()
    let err := (sys.Wait cmd).1
    let mainProcess := { cmd with ProcessState := (sys.Wait cmd).2 }
    let exitCode : Int :=
      match mainProcess.ProcessState, err with
      | some ps, none => ps.ExitCode
      | _, _ => 1
    let base := { w.t.base with LastExitCode := exitCode }
    let trace := w.trace ++
      (match err with
       | some e => [Effect.log LogLevel.Error
                      ("Error waiting on process: " ++ e.Error ++ "\n")]
       | none => [])
    let trace := trace ++
      (match mainProcess.ProcessState with
       | some ps => [Effect.log LogLevel.Debug (ps.String ++ "\n")]
       | none => [])
    let trace := trace ++
      (match mainProcess.Process with
       | some p => [Effect.release p.Pid]
       | none => [])
    -- t.mainProcess = nil; t.Wait.Done()
    match WaitGroup.Done base.Wait with
    | .error p => .error p
    | .ok n =>
      let base := { base with Wait := n }
      let msg : Status := { Running := false, Installing := base.Installing }
      let w1 : World :=
        { t := { w.t with base := base, mainProcess := none },
          trace := trace ++ [Effect.status msg] }
      match callback with
      | some f => f exitCode { w1 with trace := w1.trace ++ [Effect.callback exitCode] }
      | none => .ok w1

/-- A `process.MemoryInfoStat` of gopsutil. -/
structure MemoryInfoStat where
  RSS : Nat
deriving DecidableEq, Repr

/-- A `pufferpanel.ServerStats`; `F` stands for `float64`. -/
structure ServerStats (F : Type) where
  Cpu : F
  Memory : F
deriving DecidableEq, Repr

/-- The calls into gopsutil and `cast`, as `GetStats` sees them.  A process
handle is the pid it was made for; `MemoryInfo` returns a pointer that may be
nil. -/
structure Sampler (F : Type) where
  /-- `process.NewProcess(pid)` -/
  NewProcess : Int → Except GoError Int
  /-- `(*process.Process).MemoryInfo()` -/
  MemoryInfo : Int → Option MemoryInfoStat × Option GoError
  /-- `(*process.Process).Percent(interval)`, the interval in nanoseconds -/
  Percent : Int → Nat → F × Option GoError
  /-- `cast.ToFloat64` on a `uint64` -/
  ToFloat64 : Nat → F

/-- Go conversion `int32(x)` of an `int`. -/
def toInt32 (x : Int) : Int :=
  (x + 2 ^ 31) % 2 ^ 32 - 2 ^ 31

/-- Go `time.Second`, in nanoseconds. -/
def Second : Nat := 1000000000

/-- `func (t *tty) GetStats() (*pufferpanel.ServerStats, error)` -/
def GetStats {F : Type} [Zero F] (sys : Sys) (sm : Sampler F) (t : tty) :
    Except String (Option (ServerStats F) × Option GoError) :=
  match IsRunning sys t with
  | (_, some err) => .ok (none, some err)
  | (false, none) => .ok (some { Cpu := 0, Memory := 0 }, none)
  | (true, none) =>
    match t.mainProcess.bind (fun c => c.Process) with
    | none => .error "invalid memory address or nil pointer dereference"
    | some p =>
      match sm.NewProcess (toInt32 p.Pid) with
      | .error err => .ok (none, some err)
      | .ok pr =>
        let memMap := (sm.MemoryInfo pr).1
        let cpu := (sm.Percent pr (Second * 1)).1
        match memMap with
        | none => .error "invalid memory address or nil pointer dereference"
        | some m => .ok (some { Cpu := cpu, Memory := sm.ToFloat64 m.RSS }, none)

/-! ## Concrete inputs -/

/-- A system where every call succeeds and the child exits with code 0. -/
def demoSys : Sys :=
  { Environ := ["PATH=/usr/bin", "PUFFER_TOKEN=s3cr3t", "TERM=screen"]
    LookPath := fun name => name
    Join := fun a b => if b = "" then a else a ++ "/" ++ b
    Start := fun _ => .ok ({ Pid := 4242 }, { fd := 7 })
    FindProcess := fun pid => (some { Pid := pid }, none)
    Signal := fun _ _ => none
    Wait := fun _ => (none, some { ExitCode := 0, String := "exit status 0" })
    Write := fun _ _ => none }

/-- The same system, where `pty.Start` fails. -/
def failSys : Sys :=
  { demoSys with Start := fun _ => .error "fork/exec /bin/missing: no such file or directory" }

/-- The demo system where the child exits with status 3: the operating system
reports the state without error, and `Wait` is the one of `os/exec`. -/
def exitSys : Sys :=
  { demoSys with
    Wait := cmdWait (fun _ => (some { ExitCode := 3, String := "exit status 3" }, none)) }

/-- A fresh environment: nothing launched yet. -/
def idleWorld : World :=
  { t := { base := { RootDirectory := "/srv", LastExitCode := 0, Wait := 0,
                     Installing := false }
           mainProcess := none
           stdInWriter := none }
    trace := [] }

/-- The request of the spec's scenario, with the spec's overrides. -/
def demoSteps : ExecutionData :=
  { Command := "/bin/sleep", Arguments := ["2"], WorkingDirectory := "server",
    Environment := [("TERM", "vt100"), ("FOO", "bar")], Callback := none }

/-- The command `ttyExecuteAsync demoSys demoSteps idleWorld` starts. -/
def demoCmd : Cmd :=
  { Path := "/bin/sleep", Args := ["/bin/sleep", "2"], Dir := "/srv/server"
    Env := ["PATH=/usr/bin", "TERM=screen", "HOME=/srv", "TERM=xterm-256color",
            "TERM=vt100", "FOO=bar"]
    SysProcAttr := some { Setctty := true, Setsid := true }
    Process := some { Pid := 4242 }, ProcessState := none }

/-- The environment after `ttyExecuteAsync demoSys demoSteps idleWorld`. -/
def launchedWorld : World :=
  { t := { base := { RootDirectory := "/srv", LastExitCode := 0, Wait := 1,
                     Installing := false }
           mainProcess := some demoCmd
           stdInWriter := some { fd := 7 } }
    trace := [Effect.display "Starting process: /bin/sleep 2",
              Effect.log LogLevel.Info "Starting process: /bin/sleep 2",
              Effect.status { Running := true, Installing := false },
              Effect.spawn { demoCmd with Process := none },
              Effect.goCopy { fd := 7 }, Effect.goHandleClose] }

/-- A request for a command that does not exist. -/
def missingSteps : ExecutionData :=
  { Command := "/bin/missing", Arguments := [], WorkingDirectory := "",
    Environment := [], Callback := none }

/-! ## Notions used to state the properties -/

/-- The exit code `handleClose` derives from the outcome of `Wait`
(lines 178-183). -/
def exitCodeOf (err : Option GoError) (ps : Option ProcessState) : Int :=
  match ps, err with
  | some ps, none => ps.ExitCode
  | _, _ => 1

/-- The log and release effects of lines 186-196 of `handleClose`. -/
def closeLogs (sys : Sys) (cmd : Cmd) : List Effect :=
  (match (sys.Wait cmd).1 with
   | some e => [Effect.log LogLevel.Error ("Error waiting on process: " ++ e.Error ++ "\n")]
   | none => []) ++
  (match (sys.Wait cmd).2 with
   | some ps => [Effect.log LogLevel.Debug (ps.String ++ "\n")]
   | none => []) ++
  (match cmd.Process with
   | some p => [Effect.release p.Pid]
   | none => [])

/-- The world after lines 176-201 of `handleClose`, when `t.mainProcess` is
`cmd`: everything but the callback. -/
def closedWorld (sys : Sys) (w : World) (cmd : Cmd) : World :=
  { t := { w.t with
           base := { w.t.base with
                     LastExitCode := exitCodeOf (sys.Wait cmd).1 (sys.Wait cmd).2
                     Wait := w.t.base.Wait - 1 }
           mainProcess := none }
    trace := w.trace ++ closeLogs sys cmd ++
      [Effect.status { Running := false, Installing := w.t.base.Installing }] }

/-- The world a callback receives: the invocation is the last effect. -/
def callbackWorld (w1 : World) : World :=
  { w1 with trace := w1.trace ++ [Effect.callback w1.t.base.LastExitCode] }

/-- The status events of a trace, in order. -/
def statusEvents (trace : List Effect) : List Status :=
  trace.filterMap fun e => match e with
    | Effect.status msg => some msg
    | _ => none

/-- The `k=v` entry the second loop appends (`fmt.Sprintf("%s=%s", k, v)`). -/
def formatEntry (kv : String × String) : String :=
  kv.1 ++ "=" ++ kv.2

/-- The name of an environment entry `NAME=VALUE`: the text before the first
`=`. -/
def entryName (e : String) : String :=
  ⟨e.data.takeWhile (fun c => c != '=')⟩

/-- The value of an environment entry `NAME=VALUE`: the text after the first
`=`. -/
def entryValue (e : String) : String :=
  ⟨(e.data.dropWhile (fun c => c != '=')).tail⟩

/-- Whether an entry defines the variable `name` (case-sensitive). -/
def definesVar (name : String) (e : String) : Bool :=
  e.data.contains '=' && entryName e == name

/-- Resolving a variable in an environment list as the specification words
it, case-sensitive and with the last entry winning: an entry counts only when
no later entry defines the same name. -/
def lookupEnv : List String → String → Option String
  | [], _ => none
  | e :: rest, name =>
    match lookupEnv rest name with
    | some v => some v
    | none => if definesVar name e then some (entryValue e) else none

/-- A sampler whose memory query succeeds and whose CPU query fails. -/
def cpuFailSampler : Sampler ℚ :=
  { NewProcess := fun pid => .ok pid
    MemoryInfo := fun _ => (some { RSS := 1048576 }, none)
    Percent := fun _ _ => (0, some (GoError.other "open /proc/4242/stat: permission denied"))
    ToFloat64 := fun n => (n : ℚ) }

/-- Whenever a started process is held, an input writer is held too. -/
def WriterCaptured (t : tty) : Prop :=
  ∀ c : Cmd, t.mainProcess = some c → c.Process ≠ none → t.stdInWriter ≠ none

/-! ## Properties -/

theorem IsRunning_err (sys : Sys) (t : tty) : (IsRunning sys t).2 = none := by
  unfold IsRunning
  repeat' split
  all_goals rfl

theorem IsRunning_eq (sys : Sys) (t : tty) :
    IsRunning sys t = ((IsRunning sys t).1, none) := by
  rw [← IsRunning_err sys t]

/-- The demo launch produces `launchedWorld`. -/
theorem launch_demo :
    ttyExecuteAsync demoSys demoSteps idleWorld = .ok (none, launchedWorld) := by
  rfl

theorem IsRunning_of_mainProcess_none (sys : Sys) (t : tty) (h : t.mainProcess = none) :
    IsRunning sys t = (false, none) := by
  unfold IsRunning
  rw [h]

theorem Done_pos (n : Nat) (h : 0 < n) : WaitGroup.Done n = .ok (n - 1) := by
  unfold WaitGroup.Done
  rw [if_neg (by omega)]

/-- What `ttyExecuteAsync` does when a process is running: nothing. -/
theorem ttyExecuteAsync_of_running (sys : Sys) (steps : ExecutionData) (w : World)
    (h : (IsRunning sys w.t).1 = true) :
    ttyExecuteAsync sys steps w = .ok (some GoError.ErrProcessRunning, w) := by
  unfold ttyExecuteAsync
  rw [IsRunning_eq sys w.t, h]

/-- What `ttyExecuteAsync` does when nothing runs and the spawn fails. -/
theorem ttyExecuteAsync_of_spawn_error (sys : Sys) (steps : ExecutionData) (w : World)
    (e : String) (h : (IsRunning sys w.t).1 = false)
    (hs : sys.Start (buildCmd sys steps w.t.base.RootDirectory) = .error e) :
    ttyExecuteAsync sys steps w =
      .ok (some (GoError.other e),
           { t := { w.t with mainProcess := some (buildCmd sys steps w.t.base.RootDirectory) }
             trace := w.trace ++
               [Effect.display (startingLine (buildCmd sys steps w.t.base.RootDirectory)),
                Effect.log LogLevel.Info
                  (startingLine (buildCmd sys steps w.t.base.RootDirectory)),
                Effect.status { Running := true, Installing := w.t.base.Installing },
                Effect.spawn (buildCmd sys steps w.t.base.RootDirectory)] }) := by
  unfold ttyExecuteAsync
  rw [IsRunning_eq sys w.t, h]
  simp only [hs, Done_pos (w.t.base.Wait + 1) (Nat.succ_pos _), Nat.add_sub_cancel]

/-- What `ttyExecuteAsync` does when nothing runs and the spawn succeeds. -/
theorem ttyExecuteAsync_of_spawn_ok (sys : Sys) (steps : ExecutionData) (w : World)
    (proc : Process) (processTty : Writer) (h : (IsRunning sys w.t).1 = false)
    (hs : sys.Start (buildCmd sys steps w.t.base.RootDirectory) = .ok (proc, processTty)) :
    ttyExecuteAsync sys steps w =
      .ok (none,
           { t := { base := { w.t.base with Wait := w.t.base.Wait + 1 }
                    mainProcess := some { buildCmd sys steps w.t.base.RootDirectory with
                                          Process := some proc }
                    stdInWriter := some processTty }
             trace := w.trace ++
               [Effect.display (startingLine (buildCmd sys steps w.t.base.RootDirectory)),
                Effect.log LogLevel.Info
                  (startingLine (buildCmd sys steps w.t.base.RootDirectory)),
                Effect.status { Running := true, Installing := w.t.base.Installing },
                Effect.spawn (buildCmd sys steps w.t.base.RootDirectory),
                Effect.goCopy processTty, Effect.goHandleClose] }) := by
  unfold ttyExecuteAsync
  rw [IsRunning_eq sys w.t, h]
  simp only [hs, List.append_assoc, List.cons_append, List.nil_append]

/-- The result of `handleClose`: the world of `closedWorld`, then the callback. -/
theorem handleClose_eq (sys : Sys) (w : World) (cmd : Cmd)
    (cb : Option (Int → World → Except String World))
    (hm : w.t.mainProcess = some cmd) (hw : 0 < w.t.base.Wait) :
    handleClose sys cb w =
      match cb with
      | none => .ok (closedWorld sys w cmd)
      | some f => f (closedWorld sys w cmd).t.base.LastExitCode
                    (callbackWorld (closedWorld sys w cmd)) := by
  unfold handleClose
  rw [hm]
  simp only [Done_pos _ hw]
  cases cb <;>
    simp only [closedWorld, closeLogs, callbackWorld, exitCodeOf, List.append_assoc]

theorem statusEvents_append (a b : List Effect) :
    statusEvents (a ++ b) = statusEvents a ++ statusEvents b := by
  simp [statusEvents, List.filterMap_append]

theorem statusEvents_closeLogs (sys : Sys) (cmd : Cmd) :
    statusEvents (closeLogs sys cmd) = [] := by
  unfold closeLogs statusEvents
  cases (sys.Wait cmd).1 <;> cases (sys.Wait cmd).2 <;> cases cmd.Process <;> rfl

theorem closeLogs_no_callback (sys : Sys) (cmd : Cmd) (e : Effect)
    (he : e ∈ closeLogs sys cmd) (c : Int) : e ≠ Effect.callback c := by
  unfold closeLogs at he
  cases h1 : (sys.Wait cmd).1 <;> cases h2 : (sys.Wait cmd).2 <;>
    cases h3 : cmd.Process <;> simp [h1, h2, h3] at he <;>
    rcases he with he | he | he <;> simp_all

/-! ### Launching -/

/-- C1: when `IsRunning` reports true, `ttyExecuteAsync` returns
`ErrProcessRunning` and the world is the one before the call: the same
`mainProcess`, `stdInWriter` and wait-group counter, and the same trace (no
status event, no spawn, no other effect). -/
theorem launch_while_running_is_rejected (sys : Sys) (steps : ExecutionData)
    (w : World) (h : (IsRunning sys w.t).1 = true) :
    ∃ w1 : World,
      ttyExecuteAsync sys steps w = .ok (some GoError.ErrProcessRunning, w1) ∧
      w1.t.mainProcess = w.t.mainProcess ∧
      w1.t.stdInWriter = w.t.stdInWriter ∧
      w1.t.base.Wait = w.t.base.Wait ∧
      w1.trace = w.trace ∧
      w1 = w :=
  ⟨w, ttyExecuteAsync_of_running sys steps w h, rfl, rfl, rfl, rfl, rfl⟩

theorem launch_while_running_is_rejected_witness :
    (IsRunning demoSys launchedWorld.t).1 = true ∧
    ∃ w1 : World,
      ttyExecuteAsync demoSys demoSteps launchedWorld =
        .ok (some GoError.ErrProcessRunning, w1) ∧
      w1.t.mainProcess = launchedWorld.t.mainProcess ∧
      w1.t.stdInWriter = launchedWorld.t.stdInWriter ∧
      w1.t.base.Wait = launchedWorld.t.base.Wait ∧
      w1.trace = launchedWorld.trace ∧
      w1 = launchedWorld :=
  ⟨rfl, launch_while_running_is_rejected demoSys demoSteps launchedWorld rfl⟩

/-- C2, at the failing input: nothing runs, the command does not exist and
`pty.Start` fails.  The call returns the spawn error, `stdInWriter` and the
wait-group counter are those before the call, but `mainProcess` is not: it
was nil and now holds the command that failed to start. -/
theorem spawn_failure_leaves_mainProcess_set :
    (IsRunning failSys idleWorld.t).1 = false ∧
    idleWorld.t.mainProcess = none ∧
    Except.map (fun r => (r.1, r.2.t.mainProcess, r.2.t.stdInWriter, r.2.t.base.Wait))
        (ttyExecuteAsync failSys missingSteps idleWorld) =
      .ok (some (GoError.other "fork/exec /bin/missing: no such file or directory"),
           some { Path := "/bin/missing", Args := ["/bin/missing"], Dir := "/srv"
                  Env := ["PATH=/usr/bin", "TERM=screen", "HOME=/srv",
                          "TERM=xterm-256color"]
                  SysProcAttr := some { Setctty := true, Setsid := true }
                  Process := none, ProcessState := none },
           idleWorld.t.stdInWriter, idleWorld.t.base.Wait) := by
  refine ⟨rfl, rfl, ?_⟩
  rfl

/-- C9, at the failing input: nothing runs and `pty.Start` fails.  The call
returns an error, yet the trace has gained a running=true status event, and no
`handleClose` was started that would ever emit the matching running=false. -/
theorem spawn_failure_emits_running_status :
    Except.map (fun r => (r.1, statusEvents r.2.trace,
          decide (Effect.goHandleClose ∈ r.2.trace)))
        (ttyExecuteAsync failSys missingSteps idleWorld) =
      .ok (some (GoError.other "fork/exec /bin/missing: no such file or directory"),
           [{ Running := true, Installing := false }], false) := by
  rfl

/-- The status events of a launch, in general: none when rejected, one
running=true in the two other cases. -/
theorem launch_status_events (sys : Sys) (steps : ExecutionData) (w : World) :
    ∃ r, ttyExecuteAsync sys steps w = .ok r ∧
      statusEvents r.2.trace = statusEvents w.trace ++
        (if (IsRunning sys w.t).1 then []
         else [{ Running := true, Installing := w.t.base.Installing }]) := by
  cases h : (IsRunning sys w.t).1
  · cases hs : sys.Start (buildCmd sys steps w.t.base.RootDirectory) with
    | error e =>
      refine ⟨_, ttyExecuteAsync_of_spawn_error sys steps w e h hs, ?_⟩
      simp [statusEvents_append, statusEvents]
    | ok v =>
      obtain ⟨proc, processTty⟩ := v
      refine ⟨_, ttyExecuteAsync_of_spawn_ok sys steps w proc processTty h hs, ?_⟩
      simp [statusEvents_append, statusEvents]
  · exact ⟨_, ttyExecuteAsync_of_running sys steps w h, by simp⟩

/-- The status events of `handleClose`: exactly one, running=false. -/
theorem close_status_events (sys : Sys) (w : World) (cmd : Cmd) :
    statusEvents (closedWorld sys w cmd).trace = statusEvents w.trace ++
      [{ Running := false, Installing := w.t.base.Installing }] := by
  simp [closedWorld, statusEvents_append, statusEvents_closeLogs]
  simp [statusEvents]

/-! ### The lifecycle watcher -/

/-- The exit code `handleClose` records, for every outcome `(err, state)` of
`Wait`: 1 when `err` is not nil or no state was captured, the state's exit
code otherwise; the callback, if any, is called with the recorded value. -/
theorem handleClose_exit_code_of_outcome (sys : Sys) (w : World) (cmd : Cmd)
    (hm : w.t.mainProcess = some cmd) (hw : 0 < w.t.base.Wait) :
    ∃ w1 : World,
      (∀ cb, handleClose sys cb w =
        match cb with
        | none => .ok w1
        | some f => f w1.t.base.LastExitCode (callbackWorld w1)) ∧
      ((sys.Wait cmd).1 ≠ none ∨ (sys.Wait cmd).2 = none → w1.t.base.LastExitCode = 1) ∧
      (∀ ps, (sys.Wait cmd).1 = none → (sys.Wait cmd).2 = some ps →
        w1.t.base.LastExitCode = ps.ExitCode) := by
  refine ⟨closedWorld sys w cmd, fun cb => handleClose_eq sys w cmd cb hm hw, ?_, ?_⟩
  · intro h
    simp only [closedWorld, exitCodeOf]
    rcases h with h | h
    · cases he : (sys.Wait cmd).1 with
      | none => exact absurd he h
      | some e => cases (sys.Wait cmd).2 <;> rfl
    · rw [h]
  · intro ps he hp
    simp only [closedWorld, exitCodeOf, he, hp]

/-- With the `Wait` of `os/exec`, the code `handleClose` derives is 0 or 1,
whatever the operating system reports: a state with a non-zero exit code
comes with an `*exec.ExitError`. -/
theorem exitCodeOf_cmdWait (processWait : Process → Option ProcessState × Option GoError)
    (c : Cmd) :
    exitCodeOf (cmdWait processWait c).1 (cmdWait processWait c).2 = 0 ∨
    exitCodeOf (cmdWait processWait c).1 (cmdWait processWait c).2 = 1 := by
  unfold cmdWait
  cases hp : c.Process with
  | none => right; cases c.ProcessState <;> rfl
  | some p =>
    cases hs : c.ProcessState with
    | some st => right; rfl
    | none =>
      rcases hw : processWait p with ⟨state, err⟩
      cases state with
      | none => right; cases err <;> simp [hw, exitCodeOf]
      | some st =>
        cases err with
        | some e => right; simp [hw, exitCodeOf]
        | none =>
          by_cases h0 : st.ExitCode = 0
          · left
            simp [hw, ProcessState.Success, exitCodeOf, h0]
          · right
            simp [hw, ProcessState.Success, exitCodeOf, h0]

/-- With the `Wait` of `os/exec`, a child the operating system reports as
exited with a code `N` other than 0 has 1 recorded, not `N`. -/
theorem exitCodeOf_cmdWait_nonzero
    (processWait : Process → Option ProcessState × Option GoError) (c : Cmd)
    (p : Process) (st : ProcessState) (hp : c.Process = some p)
    (hs : c.ProcessState = none) (hw : processWait p = (some st, none))
    (hN : st.ExitCode ≠ 0) :
    cmdWait processWait c = (some (GoError.other st.String), some st) ∧
    exitCodeOf (cmdWait processWait c).1 (cmdWait processWait c).2 = 1 := by
  have h : cmdWait processWait c = (some (GoError.other st.String), some st) := by
    unfold cmdWait
    simp [hp, hs, hw, ProcessState.Success, hN]
  exact ⟨h, by rw [h]; rfl⟩

/-- C3, at the failing input: the launched demo process exits with status 3.
The operating system reports the state with exit code 3 and no error; `Wait`
of `os/exec` returns it with an `*exec.ExitError`, so line 179 takes the
`err != nil` branch: `LastExitCode` is 1, not 3, and the callback is called
with 1. -/
theorem nonzero_exit_is_recorded_as_one :
    exitSys.Wait demoCmd =
      (some (GoError.other "exit status 3"),
       some { ExitCode := 3, String := "exit status 3" }) ∧
    Except.map (fun w1 => w1.t.base.LastExitCode)
        (handleClose exitSys none launchedWorld) = .ok 1 ∧
    Except.map (fun w1 => (w1.t.base.LastExitCode, w1.trace.getLast?))
        (handleClose exitSys (some fun _ w1 => .ok w1) launchedWorld) =
      .ok (1, some (Effect.callback 1)) := by
  refine ⟨by rfl, by rfl, by rfl⟩

/-- C4, as stated, fails: after `handleClose` on the launched demo world the
process handle is nil but `stdInWriter` still holds the pty of the dead
process. -/
theorem handleClose_keeps_stdInWriter :
    launchedWorld.t.stdInWriter = some { fd := 7 } ∧
    Except.map (fun w1 => (w1.t.mainProcess, w1.t.stdInWriter))
        (handleClose demoSys none launchedWorld) =
      .ok (none, some { fd := 7 }) := by
  refine ⟨rfl, ?_⟩
  rfl

/-- C4, amended: once `handleClose` has observed the exit, `mainProcess` is
nil, so `IsRunning` reports false whatever the operating system answers;
`stdInWriter` is not touched. -/
theorem handleClose_clears_mainProcess (sys : Sys) (w : World) (cmd : Cmd)
    (hm : w.t.mainProcess = some cmd) (hw : 0 < w.t.base.Wait) :
    ∃ w1 : World,
      (∀ cb, handleClose sys cb w =
        match cb with
        | none => .ok w1
        | some f => f w1.t.base.LastExitCode (callbackWorld w1)) ∧
      w1.t.mainProcess = none ∧
      (∀ sys1 : Sys, IsRunning sys1 w1.t = (false, none)) ∧
      w1.t.stdInWriter = w.t.stdInWriter :=
  ⟨closedWorld sys w cmd, fun cb => handleClose_eq sys w cmd cb hm hw, rfl,
   fun sys1 => IsRunning_of_mainProcess_none sys1 _ rfl, rfl⟩

theorem handleClose_clears_mainProcess_witness :
    launchedWorld.t.mainProcess = some demoCmd ∧ 0 < launchedWorld.t.base.Wait ∧
    ∃ w1 : World,
      (∀ cb, handleClose demoSys cb launchedWorld =
        match cb with
        | none => .ok w1
        | some f => f w1.t.base.LastExitCode (callbackWorld w1)) ∧
      w1.t.mainProcess = none ∧
      (∀ sys1 : Sys, IsRunning sys1 w1.t = (false, none)) ∧
      w1.t.stdInWriter = launchedWorld.t.stdInWriter :=
  ⟨rfl, Nat.one_pos,
   handleClose_clears_mainProcess demoSys launchedWorld demoCmd rfl Nat.one_pos⟩

/-- C10: with a callback, `handleClose` ends by calling it, once, on a world
where everything else is done: the exit code is recorded in `LastExitCode`
(and is the callback's argument), `mainProcess` is nil, so `IsRunning` reports
false and a launch from inside the callback is not rejected with
`ErrProcessRunning`, the wait-group counter is decremented, and the trace
ends with the running=false status event, with no callback invocation before
it.  With a nil callback the result is that same world. -/
theorem handleClose_callback_runs_last (sys : Sys) (w : World) (cmd : Cmd)
    (hm : w.t.mainProcess = some cmd) (hw : 0 < w.t.base.Wait) :
    ∃ (w1 : World) (logs : List Effect),
      (∀ f : Int → World → Except String World,
        handleClose sys (some f) w =
          f w1.t.base.LastExitCode
            { w1 with trace := w1.trace ++ [Effect.callback w1.t.base.LastExitCode] }) ∧
      handleClose sys none w = .ok w1 ∧
      w1.t.base.LastExitCode = exitCodeOf (sys.Wait cmd).1 (sys.Wait cmd).2 ∧
      w1.t.mainProcess = none ∧
      (∀ sys1 : Sys, IsRunning sys1 w1.t = (false, none)) ∧
      (∀ (sys1 : Sys) (steps : ExecutionData),
        ∃ r, ttyExecuteAsync sys1 steps
            { w1 with trace := w1.trace ++ [Effect.callback w1.t.base.LastExitCode] } =
              .ok r ∧
          r.1 ≠ some GoError.ErrProcessRunning) ∧
      w1.t.base.Wait + 1 = w.t.base.Wait ∧
      w1.trace = w.trace ++ logs ++
        [Effect.status { Running := false, Installing := w.t.base.Installing }] ∧
      (∀ e ∈ logs, ∀ c : Int, e ≠ Effect.callback c) := by
  refine ⟨closedWorld sys w cmd, closeLogs sys cmd,
    fun f => handleClose_eq sys w cmd (some f) hm hw,
    handleClose_eq sys w cmd none hm hw, rfl, rfl,
    fun sys1 => IsRunning_of_mainProcess_none sys1 _ rfl, ?_, ?_, rfl,
    fun e he c => closeLogs_no_callback sys cmd e he c⟩
  · intro sys1 steps
    have hr : (IsRunning sys1
        ({ closedWorld sys w cmd with
           trace := (closedWorld sys w cmd).trace ++
             [Effect.callback (closedWorld sys w cmd).t.base.LastExitCode] } : World).t).1
        = false := by
      rw [IsRunning_of_mainProcess_none sys1 _ rfl]
    cases hs : sys1.Start (buildCmd sys1 steps (closedWorld sys w cmd).t.base.RootDirectory) with
    | error e =>
      exact ⟨_, ttyExecuteAsync_of_spawn_error sys1 steps _ e hr hs, by simp⟩
    | ok v =>
      exact ⟨_, ttyExecuteAsync_of_spawn_ok sys1 steps _ v.1 v.2 hr hs, by simp⟩
  · show w.t.base.Wait - 1 + 1 = w.t.base.Wait
    omega

theorem handleClose_callback_runs_last_witness :
    launchedWorld.t.mainProcess = some demoCmd ∧ 0 < launchedWorld.t.base.Wait ∧
    ∃ (w1 : World) (logs : List Effect),
      (∀ f : Int → World → Except String World,
        handleClose demoSys (some f) launchedWorld =
          f w1.t.base.LastExitCode
            { w1 with trace := w1.trace ++ [Effect.callback w1.t.base.LastExitCode] }) ∧
      handleClose demoSys none launchedWorld = .ok w1 ∧
      w1.t.base.LastExitCode = exitCodeOf (demoSys.Wait demoCmd).1 (demoSys.Wait demoCmd).2 ∧
      w1.t.mainProcess = none ∧
      (∀ sys1 : Sys, IsRunning sys1 w1.t = (false, none)) ∧
      (∀ (sys1 : Sys) (steps : ExecutionData),
        ∃ r, ttyExecuteAsync sys1 steps
            { w1 with trace := w1.trace ++ [Effect.callback w1.t.base.LastExitCode] } =
              .ok r ∧
          r.1 ≠ some GoError.ErrProcessRunning) ∧
      w1.t.base.Wait + 1 = launchedWorld.t.base.Wait ∧
      w1.trace = launchedWorld.trace ++ logs ++
        [Effect.status { Running := false, Installing := launchedWorld.t.base.Installing }] ∧
      (∀ e ∈ logs, ∀ c : Int, e ≠ Effect.callback c) :=
  ⟨rfl, Nat.one_pos,
   handleClose_callback_runs_last demoSys launchedWorld demoCmd rfl Nat.one_pos⟩

/-! ### Sending input -/

/-- C5: when `IsRunning` reports false, `ExecuteInMainProcess` returns
`ErrServerOffline` and writes nothing (the world is unchanged); when it
reports true, the one write to the captured `stdInWriter` is the text followed
by a single newline, and the error returned is the writer's. -/
theorem ExecuteInMainProcess_spec (sys : Sys) (cmd : String) (w : World) :
    ((IsRunning sys w.t).1 = false →
      ExecuteInMainProcess sys cmd w = .ok (some GoError.ErrServerOffline, w)) ∧
    (∀ stdIn : Writer, (IsRunning sys w.t).1 = true → w.t.stdInWriter = some stdIn →
      ∃ text : String, text.data = cmd.data ++ ['\n'] ∧
        ExecuteInMainProcess sys cmd w =
          .ok (sys.Write stdIn text,
               { w with trace := w.trace ++ [Effect.write stdIn text] })) := by
  constructor
  · intro h
    unfold ExecuteInMainProcess
    rw [IsRunning_eq sys w.t, h]
  · intro stdIn h hw
    refine ⟨cmd ++ "\n", by simp, ?_⟩
    unfold ExecuteInMainProcess
    rw [IsRunning_eq sys w.t, h]
    simp only [hw]

theorem ExecuteInMainProcess_spec_witness :
    ExecuteInMainProcess demoSys "stop" idleWorld =
      .ok (some GoError.ErrServerOffline, idleWorld) ∧
    ∃ text : String, text.data = "stop".data ++ ['\n'] ∧
      ExecuteInMainProcess demoSys "stop" launchedWorld =
        .ok (demoSys.Write { fd := 7 } text,
             { launchedWorld with
               trace := launchedWorld.trace ++ [Effect.write { fd := 7 } text] }) :=
  ⟨(ExecuteInMainProcess_spec demoSys "stop" idleWorld).1 rfl,
   (ExecuteInMainProcess_spec demoSys "stop" launchedWorld).2 { fd := 7 } rfl rfl⟩

/-! ### The input writer of a running process -/

theorem IsRunning_true (sys : Sys) (t : tty) (h : (IsRunning sys t).1 = true) :
    ∃ p : Process, t.mainProcess.bind (fun c => c.Process) = some p := by
  unfold IsRunning at h
  cases hm : t.mainProcess with
  | none => simp [hm] at h
  | some c =>
    cases hp : c.Process with
    | none => simp [hm, hp] at h
    | some p => exact ⟨p, by simp [hp]⟩

theorem WriterCaptured_launch (sys : Sys) (steps : ExecutionData) (w : World)
    (hinv : WriterCaptured w.t) :
    ∃ r, ttyExecuteAsync sys steps w = .ok r ∧ WriterCaptured r.2.t := by
  cases h : (IsRunning sys w.t).1
  · cases hs : sys.Start (buildCmd sys steps w.t.base.RootDirectory) with
    | error e =>
      refine ⟨_, ttyExecuteAsync_of_spawn_error sys steps w e h hs, ?_⟩
      intro c hc hp
      simp only [Option.some.injEq] at hc
      subst hc
      exact absurd rfl hp
    | ok v =>
      refine ⟨_, ttyExecuteAsync_of_spawn_ok sys steps w v.1 v.2 h hs, ?_⟩
      intro c _ _
      simp
  · exact ⟨_, ttyExecuteAsync_of_running sys steps w h, hinv⟩

theorem WriterCaptured_close (sys : Sys) (w : World) (cmd : Cmd) :
    WriterCaptured (closedWorld sys w cmd).t := by
  intro c hc
  simp [closedWorld] at hc

theorem WriterCaptured_running (sys : Sys) (t : tty) (hinv : WriterCaptured t)
    (h : (IsRunning sys t).1 = true) : ∃ stdIn, t.stdInWriter = some stdIn := by
  obtain ⟨p, hp⟩ := IsRunning_true sys t h
  cases hm : t.mainProcess with
  | none => simp [hm] at hp
  | some c =>
    have hc : c.Process ≠ none := by
      intro hn
      simp [hm, hn] at hp
    exact Option.ne_none_iff_exists'.mp (hinv c hm hc)

/-! ### Resource usage -/

/-- C8, as stated, fails: on the launched demo world, with a sampler whose
`Percent` call fails, `GetStats` returns a snapshot and a nil error. -/
theorem GetStats_ignores_cpu_error :
    (IsRunning demoSys launchedWorld.t).1 = true ∧
    (cpuFailSampler.Percent 4242 (Second * 1)).2 =
      some (GoError.other "open /proc/4242/stat: permission denied") ∧
    GetStats demoSys cpuFailSampler launchedWorld.t =
      .ok (some { Cpu := 0, Memory := 1048576 }, none) := by
  refine ⟨rfl, rfl, ?_⟩
  simp [GetStats, IsRunning, launchedWorld, demoCmd, demoSys, cpuFailSampler, toInt32]

/-- C8, amended: for a running environment, an error of the process lookup
`NewProcess` is returned with no snapshot; once the lookup succeeded and
`MemoryInfo` handed back a result, `GetStats` returns a snapshot (the CPU
value `Percent` returned, the resident memory as a float) with a nil error,
whatever errors `MemoryInfo` and `Percent` reported. -/
theorem GetStats_running {F : Type} [Zero F] (sys : Sys) (sm : Sampler F) (t : tty)
    (h : (IsRunning sys t).1 = true) :
    ∃ p : Process, t.mainProcess.bind (fun c => c.Process) = some p ∧
      (∀ err, sm.NewProcess (toInt32 p.Pid) = .error err →
        GetStats sys sm t = .ok (none, some err)) ∧
      (∀ pr m, sm.NewProcess (toInt32 p.Pid) = .ok pr → (sm.MemoryInfo pr).1 = some m →
        GetStats sys sm t =
          .ok (some { Cpu := (sm.Percent pr (Second * 1)).1,
                      Memory := sm.ToFloat64 m.RSS }, none)) := by
  obtain ⟨p, hp⟩ := IsRunning_true sys t h
  refine ⟨p, hp, ?_, ?_⟩
  · intro err he
    unfold GetStats
    rw [IsRunning_eq sys t, h]
    simp only [hp, he]
  · intro pr m he hm
    unfold GetStats
    rw [IsRunning_eq sys t, h]
    simp only [hp, he, hm]

theorem GetStats_running_witness :
    (IsRunning demoSys launchedWorld.t).1 = true ∧
    ∃ p : Process, launchedWorld.t.mainProcess.bind (fun c => c.Process) = some p ∧
      (∀ err, cpuFailSampler.NewProcess (toInt32 p.Pid) = .error err →
        GetStats demoSys cpuFailSampler launchedWorld.t = .ok (none, some err)) ∧
      (∀ pr m, cpuFailSampler.NewProcess (toInt32 p.Pid) = .ok pr →
        (cpuFailSampler.MemoryInfo pr).1 = some m →
        GetStats demoSys cpuFailSampler launchedWorld.t =
          .ok (some { Cpu := (cpuFailSampler.Percent pr (Second * 1)).1,
                      Memory := cpuFailSampler.ToFloat64 m.RSS }, none)) :=
  ⟨rfl, GetStats_running demoSys cpuFailSampler launchedWorld.t rfl⟩

/-! ### The environment of the child -/

theorem copyEnviron_eq (environ env : List String) :
    copyEnviron environ env =
      env ++ environ.filter (fun v => !HasPrefix v "PUFFER_") := by
  induction environ generalizing env with
  | nil => simp [copyEnviron]
  | cons v vs ih =>
    have hstep : copyEnviron (v :: vs) env =
        copyEnviron vs (if !HasPrefix v "PUFFER_" then env ++ [v] else env) := rfl
    rw [hstep, ih]
    cases h : HasPrefix v "PUFFER_" <;> simp [h]

theorem appendOverrides_eq (overrides : List (String × String)) (env : List String) :
    appendOverrides overrides env = env ++ overrides.map formatEntry := by
  induction overrides generalizing env with
  | nil => simp [appendOverrides]
  | cons kv rest ih =>
    have hstep : appendOverrides (kv :: rest) env =
        appendOverrides rest (env ++ [formatEntry kv]) := rfl
    rw [hstep, ih]
    simp

/-- The list the two loops build: the process environment without the
`PUFFER_` entries, in its order, then the two defaults, then the overrides. -/
theorem buildEnv_eq (environ : List String) (root : String)
    (overrides : List (String × String)) :
    buildEnv environ root overrides =
      environ.filter (fun v => !HasPrefix v "PUFFER_") ++
        ["HOME=" ++ root, "TERM=xterm-256color"] ++ overrides.map formatEntry := by
  unfold buildEnv
  rw [appendOverrides_eq, copyEnviron_eq]
  simp

theorem lookupEnv_append (a b : List String) (name : String) :
    lookupEnv (a ++ b) name =
      match lookupEnv b name with
      | some v => some v
      | none => lookupEnv a name := by
  induction a with
  | nil =>
    cases h : lookupEnv b name <;> simp [h, lookupEnv]
  | cons e rest ih =>
    have hstep : lookupEnv (e :: rest ++ b) name =
        match lookupEnv (rest ++ b) name with
        | some v => some v
        | none => if definesVar name e then some (entryValue e) else none := rfl
    have hstep2 : lookupEnv (e :: rest) name =
        match lookupEnv rest name with
        | some v => some v
        | none => if definesVar name e then some (entryValue e) else none := rfl
    rw [hstep, hstep2, ih]
    cases h : lookupEnv b name <;> simp

theorem takeWhile_name (k v : List Char) (h : '=' ∉ k) :
    (k ++ '=' :: v).takeWhile (fun c => c != '=') = k := by
  induction k with
  | nil => simp
  | cons c cs ih =>
    have hc : c ≠ '=' := fun hc => h (by simp [hc])
    have hcs : '=' ∉ cs := fun hcs => h (by simp [hcs])
    simp [List.takeWhile_cons, hc, ih hcs]

theorem dropWhile_name (k v : List Char) (h : '=' ∉ k) :
    (k ++ '=' :: v).dropWhile (fun c => c != '=') = '=' :: v := by
  induction k with
  | nil => simp
  | cons c cs ih =>
    have hc : c ≠ '=' := fun hc => h (by simp [hc])
    have hcs : '=' ∉ cs := fun hcs => h (by simp [hcs])
    simp [List.dropWhile_cons, hc, ih hcs]

theorem formatEntry_data (kv : String × String) :
    (formatEntry kv).data = kv.1.data ++ '=' :: kv.2.data := by
  simp [formatEntry, String.data_append]

theorem entryName_formatEntry (kv : String × String) (h : '=' ∉ kv.1.data) :
    entryName (formatEntry kv) = kv.1 := by
  unfold entryName
  rw [formatEntry_data, takeWhile_name _ _ h]

theorem entryValue_formatEntry (kv : String × String) (h : '=' ∉ kv.1.data) :
    entryValue (formatEntry kv) = kv.2 := by
  unfold entryValue
  rw [formatEntry_data, dropWhile_name _ _ h]
  rfl

theorem definesVar_formatEntry (name : String) (kv : String × String)
    (h : '=' ∉ kv.1.data) :
    definesVar name (formatEntry kv) = decide (kv.1 = name) := by
  unfold definesVar
  rw [entryName_formatEntry kv h, formatEntry_data]
  by_cases hk : kv.1 = name <;> simp [hk]

theorem lookupEnv_overrides_none (overrides : List (String × String)) (name : String)
    (hname : ∀ kv ∈ overrides, '=' ∉ kv.1.data)
    (h : name ∉ overrides.map Prod.fst) :
    lookupEnv (overrides.map formatEntry) name = none := by
  induction overrides with
  | nil => rfl
  | cons kv rest ih =>
    have hrest : name ∉ rest.map Prod.fst := fun hm => h (by simp at hm ⊢; exact Or.inr hm)
    have hkv : kv.1 ≠ name := fun hm => h (by simp [← hm])
    simp only [List.map_cons, lookupEnv,
      ih (fun x hx => hname x (List.mem_cons_of_mem _ hx)) hrest,
      definesVar_formatEntry name kv (hname kv (List.mem_cons_self _ _))]
    simp [hkv]

theorem lookupEnv_overrides_some (overrides : List (String × String))
    (kv : String × String)
    (hname : ∀ x ∈ overrides, '=' ∉ x.1.data)
    (hnd : (overrides.map Prod.fst).Nodup) (hmem : kv ∈ overrides) :
    lookupEnv (overrides.map formatEntry) kv.1 = some kv.2 := by
  induction overrides with
  | nil => cases hmem
  | cons x rest ih =>
    have hx : '=' ∉ x.1.data := hname x (List.mem_cons_self _ _)
    have hrestname : ∀ y ∈ rest, '=' ∉ y.1.data :=
      fun y hy => hname y (List.mem_cons_of_mem _ hy)
    rw [List.map_cons, List.nodup_cons] at hnd
    rcases List.mem_cons.mp hmem with heq | hin
    · subst heq
      simp only [List.map_cons, lookupEnv,
        lookupEnv_overrides_none rest kv.1 hrestname hnd.1,
        definesVar_formatEntry kv.1 kv hx, entryValue_formatEntry kv hx]
      simp
    · simp only [List.map_cons, lookupEnv, ih hrestname hnd.2 hin]

theorem isPrefixOf_takeWhile (p l : List Char) (h : '=' ∉ p) :
    p.isPrefixOf (l.takeWhile (fun c => c != '=')) = p.isPrefixOf l := by
  induction p generalizing l with
  | nil => simp
  | cons c cs ih =>
    have hc : c ≠ '=' := fun hc => h (by simp [hc])
    have hcs : '=' ∉ cs := fun hcs => h (by simp [hcs])
    cases l with
    | nil => simp
    | cons d ds =>
      by_cases hd : d = '='
      · subst hd
        simp [List.takeWhile_cons, List.isPrefixOf, hc]
      · simp [List.takeWhile_cons, hd, List.isPrefixOf, ih ds hcs]

theorem isPrefixOf_of_append (p k v : List Char) (h : '=' ∉ p)
    (hp : p.isPrefixOf (k ++ '=' :: v) = true) : p.isPrefixOf k = true := by
  induction p generalizing k with
  | nil => simp
  | cons c cs ih =>
    have hc : c ≠ '=' := fun hc => h (by simp [hc])
    have hcs : '=' ∉ cs := fun hcs => h (by simp [hcs])
    cases k with
    | nil => simp [List.isPrefixOf, hc] at hp
    | cons d ds =>
      simp only [List.cons_append, List.isPrefixOf, Bool.and_eq_true] at hp ⊢
      exact ⟨hp.1, ih ds hcs hp.2⟩

theorem reserved_no_equals : '=' ∉ "PUFFER_".data := by decide

/-- The name of an entry starts with `PUFFER_` exactly when the entry does:
the test of line 41 is a test on the variable's name. -/
theorem HasPrefix_entryName (e : String) :
    HasPrefix (entryName e) "PUFFER_" = HasPrefix e "PUFFER_" := by
  unfold HasPrefix entryName
  exact isPrefixOf_takeWhile _ _ reserved_no_equals

theorem HasPrefix_formatEntry (kv : String × String)
    (h : HasPrefix (formatEntry kv) "PUFFER_" = true) : HasPrefix kv.1 "PUFFER_" = true := by
  unfold HasPrefix at h ⊢
  rw [formatEntry_data] at h
  exact isPrefixOf_of_append _ _ _ reserved_no_equals h

theorem HasPrefix_home (root : String) : HasPrefix ("HOME=" ++ root) "PUFFER_" = false := by
  have hd : ("HOME=" ++ root).data = 'H' :: ("OME=" ++ root).data := by
    simp [String.data_append]
  unfold HasPrefix
  rw [hd]
  have hp : "PUFFER_".data = 'P' :: "UFFER_".data := rfl
  rw [hp]
  simp [List.isPrefixOf]

/-- The spec's example: overrides `{TERM: vt100, FOO: bar}` over the demo
process environment and root `/srv`. -/
theorem buildEnv_example :
    buildEnv demoSys.Environ "/srv" [("TERM", "vt100"), ("FOO", "bar")] =
      ["PATH=/usr/bin", "TERM=screen", "HOME=/srv", "TERM=xterm-256color",
       "TERM=vt100", "FOO=bar"] ∧
    lookupEnv (buildEnv demoSys.Environ "/srv" [("TERM", "vt100"), ("FOO", "bar")])
      "TERM" = some "vt100" ∧
    lookupEnv (buildEnv demoSys.Environ "/srv" [("TERM", "vt100"), ("FOO", "bar")])
      "FOO" = some "bar" ∧
    lookupEnv (buildEnv demoSys.Environ "/srv" [("TERM", "vt100"), ("FOO", "bar")])
      "HOME" = some "/srv" := by
  refine ⟨by decide, by decide, by decide, by decide⟩

/-- C6, as stated, fails: an override whose name holds `=` is appended as
`A=B=c`, which defines the variable `A`; resolving the override's name `A=B`
finds nothing. -/
theorem override_name_with_equals_is_not_resolved :
    (buildCmd demoSys { demoSteps with Environment := [("A=B", "c")] } "/srv").Env =
      ["PATH=/usr/bin", "TERM=screen", "HOME=/srv", "TERM=xterm-256color", "A=B=c"] ∧
    lookupEnv (buildCmd demoSys { demoSteps with Environment := [("A=B", "c")] } "/srv").Env
      "A=B" = none ∧
    lookupEnv (buildCmd demoSys { demoSteps with Environment := [("A=B", "c")] } "/srv").Env
      "A" = some "B=c" := by
  refine ⟨by decide, by decide, by decide⟩

/-- C6, amended: for every process environment, root directory and override
map whose names hold no `=`, the environment of the command is the copied
entries, then `HOME=<root>` and `TERM=xterm-256color`, then the overrides;
every override name resolves (last entry wins, case-sensitive) to the
override's value, and `HOME` resolves to the root directory when it is not
overridden.  The keys of a Go map are distinct (`hnd`). -/
theorem overrides_win (sys : Sys) (steps : ExecutionData) (root : String)
    (hnd : (steps.Environment.map Prod.fst).Nodup)
    (hname : ∀ kv ∈ steps.Environment, '=' ∉ kv.1.data) :
    (buildCmd sys steps root).Env =
      sys.Environ.filter (fun v => !HasPrefix v "PUFFER_") ++
        ["HOME=" ++ root, "TERM=xterm-256color"] ++
        steps.Environment.map (fun kv => kv.1 ++ "=" ++ kv.2) ∧
    (∀ kv ∈ steps.Environment, lookupEnv (buildCmd sys steps root).Env kv.1 = some kv.2) ∧
    ("HOME" ∉ steps.Environment.map Prod.fst →
      lookupEnv (buildCmd sys steps root).Env "HOME" = some root) := by
  have henv : (buildCmd sys steps root).Env =
      sys.Environ.filter (fun v => !HasPrefix v "PUFFER_") ++
        ["HOME=" ++ root, "TERM=xterm-256color"] ++
        steps.Environment.map formatEntry := buildEnv_eq _ _ _
  refine ⟨henv, ?_, ?_⟩
  · intro kv hkv
    rw [henv, lookupEnv_append, lookupEnv_overrides_some _ kv hname hnd hkv]
  · intro hhome
    rw [henv, lookupEnv_append, lookupEnv_overrides_none _ "HOME" hname hhome]
    simp only []
    rw [lookupEnv_append]
    have h1 : definesVar "HOME" "TERM=xterm-256color" = false := by decide
    have hH : '=' ∉ "HOME".data := by decide
    have hfmt : formatEntry ("HOME", root) = "HOME=" ++ root := by
      apply String.ext
      simp [formatEntry, String.data_append]
    have h2 : definesVar "HOME" ("HOME=" ++ root) = true := by
      have := definesVar_formatEntry "HOME" ("HOME", root) hH
      rw [hfmt] at this
      simpa using this
    have h3 : entryValue ("HOME=" ++ root) = root := by
      have := entryValue_formatEntry ("HOME", root) hH
      rw [hfmt] at this
      exact this
    simp [lookupEnv, h1, h2, h3]

theorem overrides_win_witness :
    (demoSteps.Environment.map Prod.fst).Nodup ∧
    (∀ kv ∈ demoSteps.Environment, '=' ∉ kv.1.data) ∧
    (buildCmd demoSys demoSteps "/srv").Env =
      demoSys.Environ.filter (fun v => !HasPrefix v "PUFFER_") ++
        ["HOME=" ++ "/srv", "TERM=xterm-256color"] ++
        demoSteps.Environment.map (fun kv => kv.1 ++ "=" ++ kv.2) ∧
    (∀ kv ∈ demoSteps.Environment,
      lookupEnv (buildCmd demoSys demoSteps "/srv").Env kv.1 = some kv.2) ∧
    ("HOME" ∉ demoSteps.Environment.map Prod.fst →
      lookupEnv (buildCmd demoSys demoSteps "/srv").Env "HOME" = some "/srv") :=
  ⟨by decide, by decide, overrides_win demoSys demoSteps "/srv" (by decide) (by decide)⟩

/-- C7, as stated, fails: an override named `PUFFER_TOKEN` is appended as it
is, so the environment of the command has a variable under the reserved
prefix (the one of the process environment was dropped). -/
theorem override_adds_reserved_name :
    (buildCmd demoSys { demoSteps with Environment := [("PUFFER_TOKEN", "leak")] }
        "/srv").Env =
      ["PATH=/usr/bin", "TERM=screen", "HOME=/srv", "TERM=xterm-256color",
       "PUFFER_TOKEN=leak"] ∧
    HasPrefix (entryName "PUFFER_TOKEN=leak") "PUFFER_" = true := by
  refine ⟨by decide, by decide⟩

/-- C7, amended: the environment of the command is the process environment
without its entries under `PUFFER_`, the others kept in their order, followed
by the two defaults and the overrides; a variable whose name starts with
`PUFFER_` is there only as the entry of an override of such a name, so there
is none when no override name starts with `PUFFER_`. -/
theorem reserved_names_only_from_overrides (sys : Sys) (steps : ExecutionData)
    (root : String) :
    (buildCmd sys steps root).Env =
      sys.Environ.filter (fun v => !HasPrefix v "PUFFER_") ++
        ["HOME=" ++ root, "TERM=xterm-256color"] ++
        steps.Environment.map (fun kv => kv.1 ++ "=" ++ kv.2) ∧
    (∀ e ∈ sys.Environ.filter (fun v => !HasPrefix v "PUFFER_"),
      HasPrefix (entryName e) "PUFFER_" = false) ∧
    (∀ e ∈ (buildCmd sys steps root).Env, HasPrefix (entryName e) "PUFFER_" = true →
      ∃ kv ∈ steps.Environment,
        HasPrefix kv.1 "PUFFER_" = true ∧ e = kv.1 ++ "=" ++ kv.2) ∧
    ((∀ kv ∈ steps.Environment, HasPrefix kv.1 "PUFFER_" = false) →
      ∀ e ∈ (buildCmd sys steps root).Env, HasPrefix (entryName e) "PUFFER_" = false) := by
  have henv : (buildCmd sys steps root).Env =
      sys.Environ.filter (fun v => !HasPrefix v "PUFFER_") ++
        ["HOME=" ++ root, "TERM=xterm-256color"] ++
        steps.Environment.map formatEntry := buildEnv_eq _ _ _
  have hcopied : ∀ e ∈ sys.Environ.filter (fun v => !HasPrefix v "PUFFER_"),
      HasPrefix (entryName e) "PUFFER_" = false := by
    intro e he
    rw [HasPrefix_entryName]
    simpa using (List.mem_filter.mp he).2
  have hsrc : ∀ e ∈ (buildCmd sys steps root).Env, HasPrefix (entryName e) "PUFFER_" = true →
      ∃ kv ∈ steps.Environment,
        HasPrefix kv.1 "PUFFER_" = true ∧ e = kv.1 ++ "=" ++ kv.2 := by
    intro e he hp
    rw [henv, List.mem_append, List.mem_append] at he
    rcases he with (he | he) | he
    · rw [hcopied e he] at hp
      cases hp
    · rw [HasPrefix_entryName] at hp
      have hterm : HasPrefix "TERM=xterm-256color" "PUFFER_" = false := by decide
      rcases List.mem_cons.mp he with he | he
      · rw [he, HasPrefix_home] at hp
        cases hp
      · rw [List.mem_singleton.mp he, hterm] at hp
        cases hp
    · obtain ⟨kv, hkv, rfl⟩ := List.mem_map.mp he
      rw [HasPrefix_entryName] at hp
      exact ⟨kv, hkv, HasPrefix_formatEntry kv hp, rfl⟩
  refine ⟨henv, hcopied, hsrc, ?_⟩
  intro hno e he
  cases hp : HasPrefix (entryName e) "PUFFER_" with
  | false => rfl
  | true =>
    obtain ⟨kv, hkv, hk, _⟩ := hsrc e he hp
    rw [hno kv hkv] at hk
    cases hk

theorem reserved_names_only_from_overrides_witness :
    (∀ kv ∈ demoSteps.Environment, HasPrefix kv.1 "PUFFER_" = false) ∧
    "PUFFER_TOKEN=s3cr3t" ∈ demoSys.Environ ∧
    ∀ e ∈ (buildCmd demoSys demoSteps "/srv").Env,
      HasPrefix (entryName e) "PUFFER_" = false :=
  ⟨by decide, by decide,
   (reserved_names_only_from_overrides demoSys demoSteps "/srv").2.2.2 (by decide)⟩

end PufferPanel
